import Mathlib

/-!
Verification of the audio pipeline of `planets` (`src/audio/*.rs`) against its
design document. Sample amplitudes (`SampleFormat` / `CanonicalFormat`,
`f32`/`f64` in the source) are modelled as exact integers `ℤ`: every property
at issue is structural or additive (duplication, signed-amplitude summation
from equilibrium, stage ordering, exhaustion, eviction), never about rounding
or fractional values, and `ℤ` models equilibrium (`0`) and `add_amp` (`+`)
exactly. Machine integers (`u32` sample rates, `u16` channel counts) are
modelled as `Nat`; no arithmetic near overflow occurs.
Panics (`unwrap`, out-of-bounds `Vec` indexing) are modelled as
`Except.error ()`.
-/

namespace Planets

instance {ε α : Type} [DecidableEq ε] [DecidableEq α] : DecidableEq (Except ε α) :=
  fun a b =>
    match a, b with
    | .error x, .error y =>
      match decEq x y with
      | isTrue h => isTrue (h ▸ rfl)
      | isFalse h => isFalse (fun hh => h (Except.error.inj hh))
    | .ok x, .ok y =>
      match decEq x y with
      | isTrue h => isTrue (h ▸ rfl)
      | isFalse h => isFalse (fun hh => h (Except.ok.inj hh))
    | .error _, .ok _ => isFalse (fun hh => Except.noConfusion hh)
    | .ok _, .error _ => isFalse (fun hh => Except.noConfusion hh)

/-- Modelled from the spec: the `Channels` value type is defined in a revision
of the `audio` module that is not present under `src/` (only its uses are).
Section 3 of the design: value type `{Mono, Stereo}`, constructible only from
channel counts 1 or 2; `canonicalize` compares channel layouts by count
(`Mono < Stereo`, the derived variant order). -/
inductive Channels where
  | mono
  | stereo
deriving DecidableEq

/-- Channel count of a layout (`Mono ↦ 1`, `Stereo ↦ 2`). -/
def Channels.count : Channels → Nat
  | .mono => 1
  | .stereo => 2

/-- Modelled from the spec: fallible construction of `Channels` from a raw
channel count (`TryInto<Channels>`): 1 and 2 succeed, everything else is a
construction error. -/
def Channels.fromCount : Nat → Option Channels
  | 1 => some .mono
  | 2 => some .stereo
  | _ => none

instance : LT Channels := ⟨fun a b => a.count < b.count⟩

instance (a b : Channels) : Decidable (a < b) :=
  inferInstanceAs (Decidable (a.count < b.count))

mutual

/-- The tagged union `SourceReader` from `src/audio/source.rs`.
`Wav` holds the decoder's remaining (already decoded, canonical-amplitude)
sample stream. `Ogg` holds the optional pending drained chunk and the stream
of results of future `read_dec_packet_generic` calls (`.error` = a corrupt
packet, whose decode call fails; an empty list = end of stream, after which
reads keep yielding no packet). `iter` is the boxed `Iterator` variant,
modelled by the list of its future `next()` results (after the list, `none`
forever). The two resampler variants delegate every pull to an external
`sample`-crate `Converter` iterator, modelled the same way. -/
inductive SourceReader where
  | wav (samples : List ℤ)
  | ogg (chunk : Option (List ℤ)) (packets : List (Except Unit (List ℤ)))
  | iter (script : List (Option ℤ))
  | monoResampler (script : List (Option ℤ))
  | stereoResampler (script : List (Option ℤ))
  | monoToStereo (inner : Source) (cache : Option ℤ)
  | stereoToMono (inner : Source)

/-- `Source`: a reader plus its current sample rate and channel layout. -/
inductive Source where
  | mk (reader : SourceReader) (sample_rate : Nat) (channels : Channels)

end

/-- Projection: the `sample_rate` field (`Source::sample_rate()`). -/
def Source.sample_rate : Source → Nat
  | .mk _ r _ => r

/-- Projection: the `channels` field (`Source::channels()`). -/
def Source.channels : Source → Channels
  | .mk _ _ c => c

/-- Projection: the `reader` field. -/
def Source.reader : Source → SourceReader
  | .mk r _ _ => r

/-- Nesting depth of channel-converter wrappers; used only as a recursion
bound for `Source.next` (each pull recurses into `inner` at most twice, and
pulls preserve the wrapper structure, so the depth of the argument bounds the
recursion). -/
def Source.depth : Source → Nat
  | .mk (.monoToStereo inner _) _ _ => inner.depth + 1
  | .mk (.stereoToMono inner) _ _ => inner.depth + 1
  | .mk _ _ _ => 0

/-- One pull (`<Source as Iterator>::next`, `src/audio/source.rs` lines
218-284), with an explicit recursion bound (always sufficient when
`fuel ≥ depth`, see `Source.next` and `nextFuel_depth`). Returns the pulled
sample (or `none` at exhaustion) together with the successor state, or
`.error ()` where the Rust code panics.

* `Wav`: next decoded sample, `none` once the data chunk is done.
* `Ogg`: drain the pending chunk; once it is empty, read the next packet:
  a failed decode is `unwrap`ped (panic), end of stream leaves no chunk, a
  decoded packet becomes the new chunk and its first sample (if any) is
  returned — a packet that decodes to zero samples thus yields a spurious
  `none` while data remains.
* `Iterator` and the two resampler variants: delegate to the embedded
  iterator.
* `MonoToStereo`: the Rust arm binds the cached value with `(source, mut
  accum)`; the explicit `mut` resets the match-ergonomics binding mode to
  by-value, so `accum` is a *copy* of the cache and the write `accum =
  source.next()` never persists into the enum. The stored cache therefore
  never changes: when it is `none` (as `with_channels` always constructs it)
  the stage simply passes one fresh inner sample through per call.
* `StereoToMono`: pull a left sample (`none` means exhaustion), pull a right
  sample treating `none` as equilibrium, return `left.add_amp(right)`. -/
def Source.nextFuel : Nat → Source → Except Unit (Option ℤ × Source)
  | _, .mk (.wav []) sr ch => .ok (none, .mk (.wav []) sr ch)
  | _, .mk (.wav (s :: rest)) sr ch => .ok (some s, .mk (.wav rest) sr ch)
  | _, .mk (.ogg (some (s :: rest)) packets) sr ch =>
      .ok (some s, .mk (.ogg (some rest) packets) sr ch)
  | _, .mk (.ogg _ []) sr ch => .ok (none, .mk (.ogg none []) sr ch)
  | _, .mk (.ogg _ (.error e :: _)) _ _ => .error e
  | _, .mk (.ogg _ (.ok [] :: rest)) sr ch =>
      .ok (none, .mk (.ogg (some []) rest) sr ch)
  | _, .mk (.ogg _ (.ok (s :: srest) :: rest)) sr ch =>
      .ok (some s, .mk (.ogg (some srest) rest) sr ch)
  | _, .mk (.iter []) sr ch => .ok (none, .mk (.iter []) sr ch)
  | _, .mk (.iter (o :: rest)) sr ch => .ok (o, .mk (.iter rest) sr ch)
  | _, .mk (.monoResampler []) sr ch => .ok (none, .mk (.monoResampler []) sr ch)
  | _, .mk (.monoResampler (o :: rest)) sr ch =>
      .ok (o, .mk (.monoResampler rest) sr ch)
  | _, .mk (.stereoResampler []) sr ch =>
      .ok (none, .mk (.stereoResampler []) sr ch)
  | _, .mk (.stereoResampler (o :: rest)) sr ch =>
      .ok (o, .mk (.stereoResampler rest) sr ch)
  | _, .mk (.monoToStereo inner (some v)) sr ch =>
      .ok (some v, .mk (.monoToStereo inner (some v)) sr ch)
  | fuel + 1, .mk (.monoToStereo inner none) sr ch =>
      match inner.nextFuel fuel with
      | .error e => .error e
      | .ok (o, inner2) => .ok (o, .mk (.monoToStereo inner2 none) sr ch)
  | fuel + 1, .mk (.stereoToMono inner) sr ch =>
      match inner.nextFuel fuel with
      | .error e => .error e
      | .ok (none, inner2) => .ok (none, .mk (.stereoToMono inner2) sr ch)
      | .ok (some left, inner2) =>
        match inner2.nextFuel fuel with
        | .error e => .error e
        | .ok (r, inner3) =>
            .ok (some (left + r.getD 0), .mk (.stereoToMono inner3) sr ch)
  | 0, .mk (.monoToStereo _ none) _ _ => .error ()
  | 0, .mk (.stereoToMono _) _ _ => .error ()

/-- One pull of a `Source` (fuel instantiated at the wrapper depth, which is
always sufficient). -/
def Source.next (s : Source) : Except Unit (Option ℤ × Source) :=
  s.nextFuel s.depth

/-- The results of `n` successive pulls; a panic ends the sequence. -/
def Source.pulls : Source → Nat → List (Except Unit (Option ℤ))
  | _, 0 => []
  | s, n + 1 =>
    match s.next with
    | .error e => [.error e]
    | .ok (o, s2) => .ok o :: s2.pulls n

/-- `Source::from_iterator` (`src/audio/source.rs` lines 94-104): wraps an
arbitrary boxed iterator. -/
def Source.from_iterator (script : List (Option ℤ)) (sample_rate : Nat)
    (channels : Channels) : Source :=
  .mk (.iter script) sample_rate channels

/-- `Source::with_channels` (`src/audio/source.rs` lines 138-160). The
argument is the already-converted `TryInto<Channels>` result (for the
`Option<Channels>` the sink reports this conversion is the identity; for raw
counts it is `Channels.fromCount`): matching layouts (or no target) return the
source unchanged, otherwise the source is wrapped in the appropriate
channel-converter stage — `MonoToStereo` starts with an empty cache. -/
def Source.with_channels (src : Source) (channels : Option Channels) : Source :=
  match channels with
  | some c =>
    match src.channels, c with
    | .mono, .mono => src
    | .stereo, .stereo => src
    | .mono, .stereo => .mk (.monoToStereo src none) src.sample_rate .stereo
    | .stereo, .mono => .mk (.stereoToMono src) src.sample_rate .mono
  | none => src

/-- The pull script of the external `sample`-crate `Converter` built by
`Source::into_resampler` (sinc interpolation; `HIGH_QUALITY_INTERPOLATION`
is `true`). The converter is third-party library code whose emitted samples
are not determined by this repository; no claim under verification inspects
them, so the script is left abstract (theorems about resampler variants
range over the constructor's arbitrary `script` field instead). -/
def converterScript (_src : Source) (_new_rate : Nat) : List (Option ℤ) := []

/-- `Source::with_sample_rate` (`src/audio/source.rs` lines 162-178). The
argument is the raw target rate; `TryInto<NonZeroU32>` fails on 0. A present,
nonzero target different from the current rate wraps the source in the
resampler variant matching its channel layout and records the new rate;
otherwise (no target, zero target, or rates already equal) the source is
returned unchanged. -/
def Source.with_sample_rate (src : Source) (sample_rate : Option Nat) : Source :=
  match sample_rate.bind (fun r => if r = 0 then none else some r) with
  | some r =>
    if src.sample_rate ≠ r then
      .mk
        (match src.channels with
         | .mono => .monoResampler (converterScript src r)
         | .stereo => .stereoResampler (converterScript src r))
        r src.channels
    else src
  | none => src

/-- `Source::canonicalize` (`src/audio/source.rs` lines 124-136): if the sink
reports strictly fewer channels than the source has, convert channels first
and then resample; otherwise resample first and convert channels second. -/
def Source.canonicalize (src : Source) (sink_channels : Option Channels)
    (sink_sample_rate : Option Nat) : Source :=
  if (sink_channels.map (fun c => decide (src.channels > c))).getD false then
    (src.with_channels sink_channels).with_sample_rate sink_sample_rate
  else
    (src.with_sample_rate sink_sample_rate).with_channels sink_channels

/-- Interleaving of stereo frames into the flat sample stream a stereo
decoder produces. -/
def interleave : List (ℤ × ℤ) → List ℤ
  | [] => []
  | (l, r) :: rest => l :: r :: interleave rest

/-! ## The Mixer (`src/audio/mix.rs`) -/

/-- A `Box<dyn Signal + Send + Sync>` entry value as the mixer receives it
(`signal::from_iter` over a canonicalized source): `frames` is the remaining
finite frame stream; per the `sample` crate's `Signal` contract, `next` on an
exhausted signal keeps yielding equilibrium and `is_exhausted` reports that no
frames remain. Frames are represented by one amplitude (frame operations —
`equilibrium`, `add_amp`, `to_sample` — act componentwise). -/
structure Sig where
  frames : List ℤ
deriving DecidableEq

/-- `Signal::is_exhausted` for an entry signal. -/
def Sig.is_exhausted (s : Sig) : Bool :=
  s.frames.isEmpty

/-- `Signal::next` for an entry signal: the next frame, or equilibrium once
exhausted. -/
def Sig.next (s : Sig) : ℤ × Sig :=
  match s.frames with
  | [] => (0, ⟨[]⟩)
  | x :: xs => (x, ⟨xs⟩)

/-- `Vec::swap_remove(i)`: overwrite index `i` with the last element and pop
the last (O(1) removal; order not preserved). Callers guarantee `i` is in
bounds. -/
def swap_remove (l : List α) (i : Nat) : List α :=
  match l.getLast? with
  | none => l
  | some last => (l.set i last).dropLast

/-- The loop of `swap_retain` (`src/audio/mix.rs` lines 52-58): `for i in
0..vec.len()` — the range is fixed at the *initial* length, here a countdown
of the remaining iterations with `i` the running index; at each `i` the
element is tested and, failing the test, swap-removed. Indexing `vec[i]`
past the current (shrunken) length is an out-of-bounds panic, modelled as
`.error ()`. -/
def swapRetainGo (f : α → Bool) : List α → Nat → Nat → Except Unit (List α)
  | vec, _, 0 => .ok vec
  | vec, i, rem + 1 =>
    match vec[i]? with
    | none => .error ()
    | some x => swapRetainGo f (if f x then vec else swap_remove vec i) (i + 1) rem

/-- `swap_retain(vec, f)`: retain the elements satisfying `f`, removing by
`swap_remove` (`src/audio/mix.rs` lines 52-58). -/
def swap_retain (vec : List α) (f : α → Bool) : Except Unit (List α) :=
  swapRetainGo f vec 0 vec.length

/-- The mixer's entry collection: `Vec<(Option<&'static str>, Box<dyn
Signal>)>` (`src/audio/mix.rs` line 6); the surrounding `Arc<Mutex<..>>` is
the concurrency wrapper, outside this model. -/
abbrev Mixer := List (Option String × Sig)

/-- `Mixer::new()`. -/
def Mixer.new : Mixer := []

/-- `Mixer::add` (`src/audio/mix.rs` lines 18-24): push a new entry. -/
def Mixer.add (m : Mixer) (name : Option String) (s : Sig) : Mixer :=
  m ++ [(name, s)]

/-- `Mixer::remove` (`src/audio/mix.rs` lines 26-29): swap-retain the entries
whose name differs from `Some(name)` (so unnamed entries are never matched). -/
def Mixer.remove (m : Mixer) (name : String) : Except Unit Mixer :=
  swap_retain m (fun e => e.1 != some name)

/-- `<Mixer as Signal>::next` (`src/audio/mix.rs` lines 35-44): sweep out the
exhausted entries with `swap_retain`, then pull one frame from every remaining
signal, summing the pulled frames by `add_amp` from equilibrium and converting
back with `to_sample` (identity here). Returns the mixed frame and the
advanced collection, or `.error ()` where the sweep panics. -/
def Mixer.next (m : Mixer) : Except Unit (ℤ × Mixer) :=
  match swap_retain m (fun e => !e.2.is_exhausted) with
  | .error e => .error e
  | .ok m2 =>
      .ok (m2.foldl (fun acc e => acc + e.2.next.1) 0,
           m2.map (fun e => (e.1, e.2.next.2)))

/-- `<Mixer as Signal>::is_exhausted` (`src/audio/mix.rs` lines 46-49):
constantly `false`. -/
def Mixer.is_exhausted (_ : Mixer) : Bool :=
  false

/-- The `PlaySingleton` command handling in `AudioThread::process_commands`
(`src/audio/sink.rs` lines 203-215): `mixer.remove(name)` followed by
`mixer.add(Some(name), signal)`. -/
def Mixer.play_singleton (m : Mixer) (name : String) (s : Sig) :
    Except Unit Mixer :=
  (m.remove name).map (fun m2 => m2.add (some name) s)

/-! ## Output format negotiation (`src/audio/sink.rs`) -/

/-- A `cpal::SupportedFormat` as consumed by `get_output_format`: channel
count, inclusive sample-rate range, and the sample data type (carried through
untouched, represented by a tag). -/
structure SupportedFormat where
  channels : Nat
  min_sample_rate : Nat
  max_sample_rate : Nat
  data_type : Nat
deriving DecidableEq

/-- A `cpal::Format`: channel count, sample rate, data type tag. -/
structure Format where
  channels : Nat
  sample_rate : Nat
  data_type : Nat
deriving DecidableEq

/-- `AudioThread::get_output_format` (`src/audio/sink.rs` lines 160-184).
`chosen` is the result of `device.supported_output_formats().ok().and_then(|s|
s.max_by(SupportedFormat::cmp_default_heuristics))` — the supported format
selected by cpal's heuristic ordering, or `none` when the query fails or
reports nothing; `device_default` is `device.default_output_format().ok()`.
If a supported format was chosen, its sample rate becomes 44100 Hz when the
format's inclusive range contains it and the range's maximum otherwise;
with no chosen format the device's default format is used as-is. The result
is then filtered to at most 2 channels — a format with more channels makes
negotiation fail (`.error ()`, leading to `DummySink`). -/
def get_output_format (chosen : Option SupportedFormat)
    (device_default : Option Format) : Except Unit Format :=
  let f : Option Format :=
    match chosen with
    | some sf =>
        some
          { channels := sf.channels,
            sample_rate :=
              if sf.min_sample_rate ≤ 44100 ∧ 44100 ≤ sf.max_sample_rate then
                44100
              else
                sf.max_sample_rate,
            data_type := sf.data_type }
    | none => device_default
  match f.filter (fun fm => decide (fm.channels ≤ 2)) with
  | some fm => .ok fm
  | none => .error ()

/-! ## Basic facts about `Source.next` -/

/-- A pull preserves the wrapper depth: every branch of `nextFuel` rebuilds
the same constructor around the advanced inner state, which is why
instantiating the fuel at the argument's depth is always sufficient. -/
theorem nextFuel_depth (f : Nat) (s : Source) {o : Option ℤ} {t : Source}
    (h : s.nextFuel f = .ok (o, t)) : t.depth = s.depth := by
  induction f generalizing s o t with
  | zero =>
    obtain ⟨r, sr, ch⟩ := s
    match r with
    | .wav samples =>
      cases samples <;>
        (simp only [Source.nextFuel, Except.ok.injEq, Prod.mk.injEq] at h;
         obtain ⟨-, ht⟩ := h; subst ht; rfl)
    | .ogg chunk packets =>
      match chunk, packets with
      | some (a :: l), _ | some [], [] | none, [] | some [], .ok [] :: ps
      | none, .ok [] :: ps | some [], .ok (a :: l) :: ps
      | none, .ok (a :: l) :: ps =>
        simp only [Source.nextFuel, Except.ok.injEq, Prod.mk.injEq] at h
        obtain ⟨-, ht⟩ := h; subst ht; rfl
      | some [], .error e :: ps | none, .error e :: ps =>
        simp [Source.nextFuel] at h
    | .iter script =>
      cases script <;>
        (simp only [Source.nextFuel, Except.ok.injEq, Prod.mk.injEq] at h;
         obtain ⟨-, ht⟩ := h; subst ht; rfl)
    | .monoResampler script =>
      cases script <;>
        (simp only [Source.nextFuel, Except.ok.injEq, Prod.mk.injEq] at h;
         obtain ⟨-, ht⟩ := h; subst ht; rfl)
    | .stereoResampler script =>
      cases script <;>
        (simp only [Source.nextFuel, Except.ok.injEq, Prod.mk.injEq] at h;
         obtain ⟨-, ht⟩ := h; subst ht; rfl)
    | .monoToStereo inner cache =>
      cases cache with
      | some v =>
        simp only [Source.nextFuel, Except.ok.injEq, Prod.mk.injEq] at h
        obtain ⟨-, ht⟩ := h; subst ht; rfl
      | none => simp [Source.nextFuel] at h
    | .stereoToMono inner => simp [Source.nextFuel] at h
  | succ n ih =>
    obtain ⟨r, sr, ch⟩ := s
    match r with
    | .wav samples =>
      cases samples <;>
        (simp only [Source.nextFuel, Except.ok.injEq, Prod.mk.injEq] at h;
         obtain ⟨-, ht⟩ := h; subst ht; rfl)
    | .ogg chunk packets =>
      match chunk, packets with
      | some (a :: l), _ | some [], [] | none, [] | some [], .ok [] :: ps
      | none, .ok [] :: ps | some [], .ok (a :: l) :: ps
      | none, .ok (a :: l) :: ps =>
        simp only [Source.nextFuel, Except.ok.injEq, Prod.mk.injEq] at h
        obtain ⟨-, ht⟩ := h; subst ht; rfl
      | some [], .error e :: ps | none, .error e :: ps =>
        simp [Source.nextFuel] at h
    | .iter script =>
      cases script <;>
        (simp only [Source.nextFuel, Except.ok.injEq, Prod.mk.injEq] at h;
         obtain ⟨-, ht⟩ := h; subst ht; rfl)
    | .monoResampler script =>
      cases script <;>
        (simp only [Source.nextFuel, Except.ok.injEq, Prod.mk.injEq] at h;
         obtain ⟨-, ht⟩ := h; subst ht; rfl)
    | .stereoResampler script =>
      cases script <;>
        (simp only [Source.nextFuel, Except.ok.injEq, Prod.mk.injEq] at h;
         obtain ⟨-, ht⟩ := h; subst ht; rfl)
    | .monoToStereo inner cache =>
      cases cache with
      | some v =>
        simp only [Source.nextFuel, Except.ok.injEq, Prod.mk.injEq] at h
        obtain ⟨-, ht⟩ := h; subst ht; rfl
      | none =>
        simp only [Source.nextFuel] at h
        cases hh : inner.nextFuel n with
        | error e => rw [hh] at h; exact absurd h (by simp)
        | ok p =>
          obtain ⟨o2, inner2⟩ := p
          rw [hh] at h
          simp only [Except.ok.injEq, Prod.mk.injEq] at h
          obtain ⟨-, ht⟩ := h
          subst ht
          simp [Source.depth, ih inner hh]
    | .stereoToMono inner =>
      simp only [Source.nextFuel] at h
      cases hh : inner.nextFuel n with
      | error e => rw [hh] at h; exact absurd h (by simp)
      | ok p =>
        obtain ⟨o2, inner2⟩ := p
        rw [hh] at h
        cases o2 with
        | none =>
          simp only [Except.ok.injEq, Prod.mk.injEq] at h
          obtain ⟨-, ht⟩ := h
          subst ht
          simp [Source.depth, ih inner hh]
        | some left =>
          dsimp only at h
          cases hh2 : inner2.nextFuel n with
          | error e => rw [hh2] at h; exact absurd h (by simp)
          | ok q =>
            obtain ⟨o3, inner3⟩ := q
            rw [hh2] at h
            simp only [Except.ok.injEq, Prod.mk.injEq] at h
            obtain ⟨-, ht⟩ := h
            subst ht
            simp [Source.depth, ih inner hh ▸ ih inner2 hh2]

/-- Pull equation for the `MonoToStereo` stage with an empty stored cache:
pass one inner sample (or exhaustion, or panic) straight through; the stored
cache stays empty. -/
theorem next_monoToStereo (inner : Source) (sr : Nat) (ch : Channels) :
    (Source.mk (.monoToStereo inner none) sr ch).next =
      match inner.next with
      | .error e => .error e
      | .ok (o, inner2) => .ok (o, .mk (.monoToStereo inner2 none) sr ch) :=
  rfl

/-- Pull equation for the `MonoToStereo` stage with a nonempty stored cache
(never constructed by `with_channels`, but part of the state space): the
cached sample is returned for ever and the inner source is never advanced —
the copied binding means the cache is never cleared either. -/
theorem next_monoToStereo_cached (inner : Source) (v : ℤ) (sr : Nat)
    (ch : Channels) :
    (Source.mk (.monoToStereo inner (some v)) sr ch).next =
      .ok (some v, .mk (.monoToStereo inner (some v)) sr ch) :=
  rfl

/-- Pull equation for the `StereoToMono` stage: pull a left sample (its
absence is exhaustion), pull a right sample (its absence is equilibrium), sum
the amplitudes. -/
theorem next_stereoToMono (inner : Source) (sr : Nat) (ch : Channels) :
    (Source.mk (.stereoToMono inner) sr ch).next =
      match inner.next with
      | .error e => .error e
      | .ok (none, inner2) => .ok (none, .mk (.stereoToMono inner2) sr ch)
      | .ok (some left, inner2) =>
        match inner2.next with
        | .error e => .error e
        | .ok (r, inner3) =>
            .ok (some (left + r.getD 0), .mk (.stereoToMono inner3) sr ch) := by
  simp only [Source.next, Source.depth]
  simp only [Source.nextFuel]
  cases hh : inner.nextFuel inner.depth with
  | error e => rfl
  | ok p =>
    obtain ⟨o2, inner2⟩ := p
    cases o2 with
    | none => rfl
    | some left =>
      have hd : inner2.depth = inner.depth := nextFuel_depth inner.depth inner hh
      dsimp only
      rw [hd]

/-! ## Exhaustion behaviour -/

/-- A pull script is *fused* when it never yields a sample after having
yielded `none` — the guarantee Rust's `Iterator` contract does **not** give
for the arbitrary boxed iterators `Source::from_iterator` accepts, and the
hypothesis under which exhaustion of a `Source` is permanent. -/
def fusedScript : List (Option ℤ) → Bool
  | [] => true
  | none :: rest => rest.all (fun o => o.isNone)
  | some _ :: rest => fusedScript rest

/-- The embedded pull scripts of a `Source` are all fused and every decoded
Ogg packet is nonempty (a packet decoding to zero samples makes the Ogg arm
yield a spurious `none` while data remains). -/
def Source.wf : Source → Bool
  | .mk (.wav _) _ _ => true
  | .mk (.ogg _ packets) _ _ =>
      packets.all (fun p =>
        match p with
        | .error _ => true
        | .ok samples => !samples.isEmpty)
  | .mk (.iter script) _ _ => fusedScript script
  | .mk (.monoResampler script) _ _ => fusedScript script
  | .mk (.stereoResampler script) _ _ => fusedScript script
  | .mk (.monoToStereo inner _) _ _ => inner.wf
  | .mk (.stereoToMono inner) _ _ => inner.wf

/-- A `Source` state that yields `none` on this pull and on every later one:
the decoder/iterator has nothing left, and every wrapper sits on a dead inner
source (with an empty `MonoToStereo` cache). -/
def Source.dead : Source → Bool
  | .mk (.wav samples) _ _ => samples.isEmpty
  | .mk (.ogg chunk packets) _ _ =>
      (match chunk with
       | none => true
       | some l => l.isEmpty) && packets.isEmpty
  | .mk (.iter script) _ _ => script.all (fun o => o.isNone)
  | .mk (.monoResampler script) _ _ => script.all (fun o => o.isNone)
  | .mk (.stereoResampler script) _ _ => script.all (fun o => o.isNone)
  | .mk (.monoToStereo inner cache) _ _ => cache.isNone && inner.dead
  | .mk (.stereoToMono inner) _ _ => inner.dead

/-- Pulling a dead source yields `none` and leaves a dead source. -/
theorem dead_next : ∀ (s : Source), s.dead = true →
    ∃ t, s.next = .ok (none, t) ∧ t.dead = true
  | .mk (.wav samples) sr ch, h => by
    cases samples with
    | nil => exact ⟨_, rfl, rfl⟩
    | cons a as => simp [Source.dead] at h
  | .mk (.ogg chunk packets) sr ch, h => by
    cases packets with
    | cons p ps => simp [Source.dead] at h
    | nil =>
      cases chunk with
      | none => exact ⟨_, rfl, rfl⟩
      | some l =>
        cases l with
        | nil => exact ⟨_, rfl, rfl⟩
        | cons a as => simp [Source.dead] at h
  | .mk (.iter script) sr ch, h => by
    cases script with
    | nil => exact ⟨_, rfl, rfl⟩
    | cons o os =>
      simp only [Source.dead, List.all_cons, Bool.and_eq_true] at h
      obtain ⟨ho, hos⟩ := h
      rw [Option.isNone_iff_eq_none] at ho
      subst ho
      exact ⟨.mk (.iter os) sr ch, rfl, by simpa [Source.dead] using hos⟩
  | .mk (.monoResampler script) sr ch, h => by
    cases script with
    | nil => exact ⟨_, rfl, rfl⟩
    | cons o os =>
      simp only [Source.dead, List.all_cons, Bool.and_eq_true] at h
      obtain ⟨ho, hos⟩ := h
      rw [Option.isNone_iff_eq_none] at ho
      subst ho
      exact ⟨.mk (.monoResampler os) sr ch, rfl, by simpa [Source.dead] using hos⟩
  | .mk (.stereoResampler script) sr ch, h => by
    cases script with
    | nil => exact ⟨_, rfl, rfl⟩
    | cons o os =>
      simp only [Source.dead, List.all_cons, Bool.and_eq_true] at h
      obtain ⟨ho, hos⟩ := h
      rw [Option.isNone_iff_eq_none] at ho
      subst ho
      exact ⟨.mk (.stereoResampler os) sr ch, rfl,
        by simpa [Source.dead] using hos⟩
  | .mk (.monoToStereo inner cache) sr ch, h => by
    simp only [Source.dead, Bool.and_eq_true] at h
    obtain ⟨hc, hd⟩ := h
    rw [Option.isNone_iff_eq_none] at hc
    subst hc
    obtain ⟨t, ht, htd⟩ := dead_next inner hd
    refine ⟨.mk (.monoToStereo t none) sr ch, ?_, ?_⟩
    · rw [next_monoToStereo, ht]
    · simp [Source.dead, htd]
  | .mk (.stereoToMono inner) sr ch, h => by
    obtain ⟨t, ht, htd⟩ := dead_next inner h
    refine ⟨.mk (.stereoToMono t) sr ch, ?_, ?_⟩
    · rw [next_stereoToMono, ht]
    · simpa [Source.dead] using htd

/-- For a well-formed source, the successor state of a pull that yielded
`none` is dead: whatever once signals exhaustion has nothing left. -/
theorem wf_next_none_dead : ∀ (s : Source) {t : Source}, s.wf = true →
    s.next = .ok (none, t) → t.dead = true
  | .mk (.wav samples) sr ch, t, hwf, h => by
    cases samples with
    | nil =>
      simp only [Source.next, Source.depth, Source.nextFuel,
        Except.ok.injEq, Prod.mk.injEq] at h
      obtain ⟨-, ht⟩ := h
      subst ht
      rfl
    | cons a as => simp [Source.next, Source.depth, Source.nextFuel] at h
  | .mk (.ogg chunk packets) sr ch, t, hwf, h => by
    match chunk, packets with
    | some (a :: l), _ => simp [Source.next, Source.depth, Source.nextFuel] at h
    | some [], [] | none, [] =>
      simp only [Source.next, Source.depth, Source.nextFuel,
        Except.ok.injEq, Prod.mk.injEq] at h
      obtain ⟨-, ht⟩ := h
      subst ht
      rfl
    | some [], .error e :: ps | none, .error e :: ps =>
      simp [Source.next, Source.depth, Source.nextFuel] at h
    | some [], .ok [] :: ps | none, .ok [] :: ps =>
      simp [Source.wf, List.all_cons] at hwf
    | some [], .ok (a :: l) :: ps | none, .ok (a :: l) :: ps =>
      simp [Source.next, Source.depth, Source.nextFuel] at h
  | .mk (.iter script) sr ch, t, hwf, h => by
    cases script with
    | nil =>
      simp only [Source.next, Source.depth, Source.nextFuel,
        Except.ok.injEq, Prod.mk.injEq] at h
      obtain ⟨-, ht⟩ := h
      subst ht
      rfl
    | cons o os =>
      simp only [Source.next, Source.depth, Source.nextFuel,
        Except.ok.injEq, Prod.mk.injEq] at h
      obtain ⟨ho, ht⟩ := h
      subst ht
      subst ho
      simpa [Source.wf, fusedScript, Source.dead] using hwf
  | .mk (.monoResampler script) sr ch, t, hwf, h => by
    cases script with
    | nil =>
      simp only [Source.next, Source.depth, Source.nextFuel,
        Except.ok.injEq, Prod.mk.injEq] at h
      obtain ⟨-, ht⟩ := h
      subst ht
      rfl
    | cons o os =>
      simp only [Source.next, Source.depth, Source.nextFuel,
        Except.ok.injEq, Prod.mk.injEq] at h
      obtain ⟨ho, ht⟩ := h
      subst ht
      subst ho
      simpa [Source.wf, fusedScript, Source.dead] using hwf
  | .mk (.stereoResampler script) sr ch, t, hwf, h => by
    cases script with
    | nil =>
      simp only [Source.next, Source.depth, Source.nextFuel,
        Except.ok.injEq, Prod.mk.injEq] at h
      obtain ⟨-, ht⟩ := h
      subst ht
      rfl
    | cons o os =>
      simp only [Source.next, Source.depth, Source.nextFuel,
        Except.ok.injEq, Prod.mk.injEq] at h
      obtain ⟨ho, ht⟩ := h
      subst ht
      subst ho
      simpa [Source.wf, fusedScript, Source.dead] using hwf
  | .mk (.monoToStereo inner cache) sr ch, t, hwf, h => by
    cases cache with
    | some v => simp [Source.next, Source.depth, Source.nextFuel] at h
    | none =>
      rw [next_monoToStereo] at h
      cases hh : inner.next with
      | error e => rw [hh] at h; exact absurd h (by simp)
      | ok p =>
        obtain ⟨o2, inner2⟩ := p
        rw [hh] at h
        simp only [Except.ok.injEq, Prod.mk.injEq] at h
        obtain ⟨ho, ht⟩ := h
        subst ht
        subst ho
        have hid : inner2.dead = true :=
          wf_next_none_dead inner (by simpa [Source.wf] using hwf) hh
        simp [Source.dead, hid]
  | .mk (.stereoToMono inner) sr ch, t, hwf, h => by
    rw [next_stereoToMono] at h
    cases hh : inner.next with
    | error e => rw [hh] at h; exact absurd h (by simp)
    | ok p =>
      obtain ⟨o2, inner2⟩ := p
      rw [hh] at h
      cases o2 with
      | some left =>
        dsimp only at h
        cases hh2 : inner2.next with
        | error e => rw [hh2] at h; exact absurd h (by simp)
        | ok q =>
          obtain ⟨o3, inner3⟩ := q
          rw [hh2] at h
          simp at h
      | none =>
        simp only [Except.ok.injEq, Prod.mk.injEq] at h
        obtain ⟨-, ht⟩ := h
        subst ht
        have hid : inner2.dead = true :=
          wf_next_none_dead inner (by simpa [Source.wf] using hwf) hh
        simpa [Source.dead] using hid

/-- Pulling a dead source `n` times yields `none` every time. -/
theorem dead_pulls (n : Nat) : ∀ (s : Source), s.dead = true →
    s.pulls n = List.replicate n (.ok none) := by
  induction n with
  | zero => intro s _; rfl
  | succ m ih =>
    intro s hs
    obtain ⟨t, ht, htd⟩ := dead_next s hs
    simp [Source.pulls, ht, List.replicate_succ, ih t htd]

/-- Outputs of the `StereoToMono` stage over a WAV decoder holding the
interleaving of `frames` plus an optional trailing (unpaired left) sample:
one summed sample per frame, the trailing sample passed through with an
equilibrium right channel, then exhaustion. -/
theorem stereoToMono_wav_pulls (frames : List (ℤ × ℤ)) (t : Option ℤ)
    (sr sr2 : Nat) (ch ch2 : Channels) :
    (Source.mk (.stereoToMono (.mk (.wav (interleave frames ++ t.toList)) sr ch))
        sr2 ch2).pulls (frames.length + t.toList.length + 1) =
      frames.map (fun p => .ok (some (p.1 + p.2))) ++
        t.toList.map (fun v => .ok (some v)) ++ [.ok none] := by
  induction frames with
  | nil =>
    cases t with
    | none => rfl
    | some v =>
      simp [Source.pulls, next_stereoToMono, Source.next, Source.depth,
        Source.nextFuel, interleave, Option.toList]
  | cons p rest ih =>
    obtain ⟨l, r⟩ := p
    have hcount : ((l, r) :: rest : List (ℤ × ℤ)).length + t.toList.length + 1
        = (rest.length + t.toList.length + 1) + 1 := by
      simp [List.length_cons]
      omega
    rw [hcount]
    exact congrArg (List.cons (Except.ok (some (l + r)))) ih

/-! ## The claims -/

/-- C1 (`code_bug`): the spec says `MonoToStereo` duplicates each pulled mono
sample into both channels (`[s0, s1, s2] ↦ [s0, s0, s1, s1, s2, s2]`), caching
the first channel's value. On the code a mono WAV source `[1, 2, 3]` wrapped
by `with_channels(Stereo)` yields `[1, 2, 3]` and then exhaustion: the `mut
accum` pattern binding copies the cached `Option` out of the enum, the cache
write never persists, and the stage degenerates to a pass-through. -/
theorem c1_mono_to_stereo_passthrough :
    ((Source.mk (.wav [1, 2, 3]) 44100 .mono).with_channels (some .stereo)).pulls 4
      = [.ok (some 1), .ok (some 2), .ok (some 3), .ok none] :=
  rfl

/-- C2 (`code_bug`): the good paths of `Mixer::next` behave as claimed — an
empty collection mixes to equilibrium, not an error, and two entries each
emitting constant amplitude 3 mix to 6 — but the exhaustion sweep is broken:
with an exhausted entry ahead of a live one, `swap_retain`'s loop range is
fixed at the initial length, so after the removal the final iteration indexes
past the shrunken vector and panics instead of mixing the remaining entry. -/
theorem c2_mixer_next_eval :
    Mixer.next [] = .ok (0, []) ∧
    Mixer.next [(none, ⟨[3]⟩), (none, ⟨[3]⟩)]
      = .ok (6, [(none, ⟨[]⟩), (none, ⟨[]⟩)]) ∧
    Mixer.next [(some "a", ⟨[]⟩), (some "b", ⟨[5]⟩)] = .error () :=
  ⟨rfl, by decide, rfl⟩

/-- C3 (`code_bug`): from an empty mixer, `play_singleton("x", sA)` followed
by `play_singleton("x", sB)` does leave exactly the single entry `("x", sB)`,
as claimed; but on a mixer that also holds an unnamed entry after the named
one, `play_singleton("x", sB)` panics inside `Mixer::remove`'s `swap_retain`
(index out of bounds after the swap-removal) instead of replacing the entry
and leaving the others untouched. -/
theorem c3_play_singleton_eval :
    ((Mixer.play_singleton [] "x" ⟨[1, 2]⟩).bind
        (fun m => m.play_singleton "x" ⟨[9]⟩)) = .ok [(some "x", ⟨[9]⟩)] ∧
    Mixer.play_singleton [(some "x", ⟨[1, 2]⟩), (none, ⟨[7]⟩)] "x" ⟨[9]⟩
      = .error () :=
  ⟨rfl, rfl⟩

/-- C4 (`corrected`, counterexample): the claim says a corrupt packet is
skipped and decoding continues with the next packet. On the code, an Ogg
source whose next packet read fails decodes nothing further: the pull
`unwrap`s the decode error and panics, so the stream ends at the corrupt
packet and the following good packet (`[1]`) is never reached. -/
theorem c4_corrupt_packet_counterexample :
    (Source.mk (.ogg (some []) [.error (), .ok [1]]) 44100 .mono).pulls 2
      = [.error ()] :=
  rfl

/-- C4 (amended): once the pending chunk is drained, a pull that meets a
corrupt packet panics (aborts the stream) — for every remaining packet list
and source configuration. -/
theorem c4_corrupt_packet_aborts (rest : List (Except Unit (List ℤ)))
    (sr : Nat) (ch : Channels) :
    (Source.mk (.ogg none (.error () :: rest)) sr ch).next = .error () ∧
    (Source.mk (.ogg (some []) (.error () :: rest)) sr ch).next = .error () :=
  ⟨rfl, rfl⟩

/-- C5 (`corrected`, counterexample): the claim says the sample rate falls
back to the device's own default when 44100 Hz is unsupported, and that the
format is clamped to at most 2 channels. On the code, a chosen supported
format with range 48000..=48000 and a device default of 22050 Hz yields
48000 Hz — the chosen format's maximum, not the device default — and a
6-channel chosen format makes negotiation fail outright rather than being
clamped to 2 channels. -/
theorem c5_format_counterexample :
    get_output_format (some ⟨2, 48000, 48000, 0⟩) (some ⟨2, 22050, 0⟩)
      = .ok ⟨2, 48000, 0⟩ ∧
    get_output_format (some ⟨6, 44100, 44100, 0⟩) (some ⟨2, 44100, 0⟩)
      = .error () :=
  ⟨rfl, rfl⟩

/-- C5 (amended): for every chosen supported format the negotiated sample
rate is 44100 Hz when the format's inclusive range contains it and the
format's maximum rate otherwise, with formats above 2 channels rejected
(negotiation fails, it does not clamp); the device's default format is used,
subject to the same 2-channel filter, only when no supported format was
chosen. -/
theorem c5_format_negotiation (sf : SupportedFormat) (d : Option Format) :
    get_output_format (some sf) d =
      (if sf.channels ≤ 2 then
        .ok ⟨sf.channels,
          if sf.min_sample_rate ≤ 44100 ∧ 44100 ≤ sf.max_sample_rate then 44100
          else sf.max_sample_rate,
          sf.data_type⟩
      else .error ()) ∧
    get_output_format none d =
      (match d with
       | some fm => if fm.channels ≤ 2 then .ok fm else .error ()
       | none => .error ()) := by
  constructor
  · by_cases h : sf.channels ≤ 2 <;> simp [get_output_format, Option.filter, h]
  · cases d with
    | none => rfl
    | some fm =>
      by_cases h : fm.channels ≤ 2 <;>
        simp [get_output_format, Option.filter, h]

/-- C6 (`corrected`, counterexample): exhaustion is not permanent for every
Source. `Source::from_iterator` accepts an arbitrary boxed iterator, and a
non-fused one yields no sample and then a sample again; likewise an Ogg
packet that decodes to zero samples produces a spurious no-sample pull after
which data resumes. -/
theorem c6_resurrection_counterexample :
    (Source.from_iterator [none, some 1] 44100 .mono).pulls 2
      = [.ok none, .ok (some 1)] ∧
    (Source.mk (.ogg (some []) [.ok [], .ok [5]]) 44100 .mono).pulls 2
      = [.ok none, .ok (some 5)] :=
  ⟨rfl, rfl⟩

/-- C6 (amended): for a well-formed source — all embedded iterator/resampler
scripts fused, all decoded Ogg packets nonempty — once a pull returns no
sample, every subsequent pull returns no sample (and never panics). -/
theorem c6_exhaustion_permanent (s t : Source) (hwf : s.wf = true)
    (h : s.next = .ok (none, t)) (n : Nat) :
    t.pulls n = List.replicate n (.ok none) :=
  dead_pulls n t (wf_next_none_dead s hwf h)

/-- Witness for C6 at a concrete input: a fused single-`none` iterator
source is exhausted on the first pull and stays exhausted. -/
theorem c6_exhaustion_permanent_witness :
    (Source.from_iterator [none] 44100 .mono).wf = true ∧
    (Source.mk (.iter []) 44100 .mono).pulls 3 = List.replicate 3 (.ok none) :=
  ⟨rfl,
   c6_exhaustion_permanent (Source.from_iterator [none] 44100 .mono)
     (Source.mk (.iter []) 44100 .mono) rfl rfl 3⟩

/-- C7 (`confirmed`): `with_sample_rate(Some(R))` on a source already at rate
R returns it unchanged — the check happens once at wrap time — and therefore
applying `with_sample_rate` twice with the same R adds the resampler at most
once: the second application is the identity. -/
theorem c7_with_sample_rate_idempotent (src : Source) (R : Nat) :
    (src.sample_rate = R → src.with_sample_rate (some R) = src) ∧
    (src.with_sample_rate (some R)).with_sample_rate (some R)
      = src.with_sample_rate (some R) := by
  obtain ⟨rd, r0, c0⟩ := src
  constructor
  · intro h
    simp only [Source.sample_rate] at h
    by_cases hR : R = 0 <;>
      simp [Source.with_sample_rate, Option.bind, hR, h, Source.sample_rate]
  · by_cases hR : R = 0
    · simp [Source.with_sample_rate, Option.bind, hR]
    · by_cases hsr : r0 = R
      · simp [Source.with_sample_rate, Option.bind, hR, hsr, Source.sample_rate]
      · simp [Source.with_sample_rate, Option.bind, hR, hsr, Source.sample_rate]

/-- Witness for C7 at concrete inputs: a 22050 Hz WAV source is returned
unchanged by `with_sample_rate(Some(22050))`, and re-applying
`with_sample_rate(Some(44100))` after a first application is the identity. -/
theorem c7_with_sample_rate_idempotent_witness :
    (Source.mk (.wav [1]) 22050 .mono).with_sample_rate (some 22050)
      = Source.mk (.wav [1]) 22050 .mono ∧
    ((Source.mk (.wav [1]) 22050 .mono).with_sample_rate (some 44100)).with_sample_rate
        (some 44100)
      = (Source.mk (.wav [1]) 22050 .mono).with_sample_rate (some 44100) :=
  ⟨(c7_with_sample_rate_idempotent (Source.mk (.wav [1]) 22050 .mono) 22050).1 rfl,
   (c7_with_sample_rate_idempotent (Source.mk (.wav [1]) 22050 .mono) 44100).2⟩

/-- C8 (`confirmed`): `canonicalize` orders the two wraps by cost — when the
sink reports strictly fewer channels than the source has, the channel
conversion is applied before the resampling; when it reports more or equal
channels, or no channel information, the resampling is applied first and the
channel conversion second. -/
theorem c8_canonicalize_order (src : Source) (sc : Option Channels)
    (sr : Option Nat) :
    src.canonicalize sc sr =
      match sc with
      | some c =>
          if src.channels > c then (src.with_channels sc).with_sample_rate sr
          else (src.with_sample_rate sr).with_channels sc
      | none => (src.with_sample_rate sr).with_channels sc := by
  cases sc with
  | none => simp [Source.canonicalize]
  | some c => by_cases h : src.channels > c <;> simp [Source.canonicalize, h]

/-- C9 (`confirmed`): the `StereoToMono` stage built by `with_channels(Mono)`
sums left and right amplitudes per frame — stereo frames `[(L0, R0), (L1, R1)]`
yield mono `[L0 + R0, L1 + R1]` — and a source ending after an unpaired left
sample (odd total sample count) treats the missing right channel as
equilibrium rather than failing. -/
theorem c9_stereo_to_mono_sums (frames : List (ℤ × ℤ)) (t : Option ℤ)
    (sr : Nat) :
    ((Source.mk (.wav (interleave frames ++ t.toList)) sr .stereo).with_channels
        (some .mono)).pulls (frames.length + t.toList.length + 1) =
      frames.map (fun p => .ok (some (p.1 + p.2))) ++
        t.toList.map (fun v => .ok (some v)) ++ [.ok none] :=
  stereoToMono_wav_pulls frames t sr sr .stereo .mono

/-- C10 (`code_bug`): `Mixer::is_exhausted` is indeed constantly `false` for
every collection state, but it is not true that every call to `next` produces
a sample: once all playing sources are exhausted (here two of them), the
sweep's out-of-bounds indexing panics, terminating the audio thread rather
than mixing equilibrium for ever. -/
theorem c10_mixer_never_exhausted :
    (∀ m : Mixer, Mixer.is_exhausted m = false) ∧
    Mixer.next [(none, ⟨[]⟩), (none, ⟨[]⟩)] = .error () :=
  ⟨fun _ => rfl, rfl⟩

end Planets
